import Mathlib

/-!
Verification of the Mumble recording/transcription session controller
(mumble.py), shallowly embedded in Lean 4.

Audio samples are modelled as integers (their numeric values are never
computed on by the controller), strings as lists of characters, and the
side effects of the program (beeps, log lines, tray updates, clipboard
writes and key injection) as an explicit list of emitted actions.  The
process-wide mutable globals of mumble.py (recording, audio_chunks,
last_transcription, recording_timer, input_stream) become the fields of
an explicit state record, and each Python function becomes a function
from state to state paired with the actions it performs.
-/

namespace Mumble

/-! ## Strings and Python-style strip (mumble.py lines 283, 298) -/

/-- Characters removed by Python str.strip() with no arguments
(ASCII whitespace, as in mumble.py line 283). -/
def pyWsChar (c : Char) : Bool :=
  c == ' ' || c == '\t' || c == '\n' || c == '\r' || c == '\x0b' || c == '\x0c'

/-- Characters removed by the strip argument of text.strip("., ") in
mumble.py line 298. -/
def cmdStripChar (c : Char) : Bool :=
  c == '.' || c == ',' || c == ' '

/-- Remove the longest run of characters satisfying p from the front of a
list (one end of Python str.strip). -/
def stripLeadingBy (p : Char → Bool) : List Char → List Char
  | [] => []
  | c :: rest => if p c then stripLeadingBy p rest else c :: rest

/-- Remove the longest run of characters satisfying p from the back of a
list (the other end of Python str.strip). -/
def stripTrailingBy (p : Char → Bool) (l : List Char) : List Char :=
  (stripLeadingBy p l.reverse).reverse

/-- Python str.strip(chars): removes the characters from both ends. -/
def pyStrip (p : Char → Bool) (l : List Char) : List Char :=
  stripLeadingBy p (stripTrailingBy p l)

/-- Python text.strip() as used in mumble.py line 283. -/
def pyStripWs (l : List Char) : List Char := pyStrip pyWsChar l

/-- Python text.strip("., ") as used in mumble.py line 298. -/
def pyStripCmd (l : List Char) : List Char := pyStrip cmdStripChar l

/-- Python str.lower() over the characters of a string. -/
def toLowerL (l : List Char) : List Char := l.map Char.toLower

/-- The fixed voice-command phrase "show help" compared against in
mumble.py line 298, as a character list. -/
def showHelpL : List Char := ['s', 'h', 'o', 'w', ' ', 'h', 'e', 'l', 'p']

/-- Python " ".join(...) over segment texts (mumble.py line 283). -/
def joinSpace (segs : List (List Char)) : List Char :=
  List.intercalate [' '] segs

/-! ## The two regex substitutions (mumble.py lines 290 and 293) -/

/-- The substitution re.sub applied at line 290 of mumble.py: scan left to
right and delete every single space whose immediate neighbours in the
original text are both digits (the lookbehind and lookahead are
zero-width, so after a deletion the scan resumes at the following
digit, which may serve as the lookbehind of the next match). -/
def collapseDigitSpaces : List Char → List Char
  | [] => []
  | [a] => [a]
  | [a, b] => [a, b]
  | a :: b :: c :: rest =>
      if b == ' ' && a.isDigit && c.isDigit then a :: collapseDigitSpaces (c :: rest)
      else a :: collapseDigitSpaces (b :: c :: rest)

/-- The substitution re.sub applied at line 293 of mumble.py: every run of
two or more spaces is replaced by a single space. -/
def collapseSpaces : List Char → List Char
  | [] => []
  | [a] => [a]
  | a :: b :: rest =>
      if a == ' ' && b == ' ' then collapseSpaces (b :: rest)
      else a :: collapseSpaces (b :: rest)

/-- The text post-processing pipeline of mumble.py lines 283-293 applied
to the raw joined segment text: strip, digit-space rule, space-run rule. -/
def postProcess (raw : List Char) : List Char :=
  collapseSpaces (collapseDigitSpaces (pyStripWs raw))

/-! ## Declarative characterizations of the regex rules (from the spec) -/

/-- Digit test on an optional neighbour character; a missing neighbour
(start or end of text) counts as not a digit. -/
def isDigitO : Option Char → Bool
  | some c => c.isDigit
  | none => false

/-- Declarative rendering of the spec sentence for the first regex rule:
walking the text, a space is removed iff the character immediately
before it and the character immediately after it in the original text
are both digits; every other character is kept.  The prev argument is
the immediately preceding character of the original text. -/
def dropDigitSpacesSpec (prev : Option Char) : List Char → List Char
  | [] => []
  | c :: rest =>
      if c == ' ' && isDigitO prev && isDigitO rest.head? then
        dropDigitSpacesSpec (some c) rest
      else c :: dropDigitSpacesSpec (some c) rest

/-- True iff the text contains two adjacent spaces (a run of length two or
more survives). -/
def hasDoubleSpace : List Char → Bool
  | a :: b :: rest => (a == ' ' && b == ' ') || hasDoubleSpace (b :: rest)
  | _ => false

/-! ## Resampling (mumble.py lines 276-279) -/

/-- Ceiling division on naturals; scipy.signal.resample_poly produces
ceil(n * up / down) output samples for n input samples. -/
def ceilDiv (a b : Nat) : Nat := (a + b - 1) / b

/-- Rounding division on naturals: round(a / b) with halves rounded up. -/
def roundNat (a b : Nat) : Nat := (2 * a + b) / (2 * b)

/-- The resampling step of mumble.py lines 276-279: when the capture rate
differs from the engine rate, call the polyphase resampler rp (the
scipy.signal.resample_poly collaborator, passed as a parameter) with the
gcd-reduced up/down ratio; otherwise the audio passes through untouched. -/
def resampleStep (rp : Nat → Nat → List Int → List Int)
    (nativeRate targetRate : Nat) (xs : List Int) : List Int :=
  if nativeRate ≠ targetRate then
    rp (targetRate / Nat.gcd nativeRate targetRate)
       (nativeRate / Nat.gcd nativeRate targetRate) xs
  else xs

/-! ## Controller state and actions -/

/-- The process-wide mutable state of mumble.py: the recording flag, the
armed auto-cancel timer, whether a stop-and-transcribe worker thread is
still running, the buffered audio chunks, the cached last transcription
and whether the input stream is open. -/
structure St where
  recording : Bool
  timerArmed : Bool
  workerInFlight : Bool
  chunks : List (List Int)
  last_transcription : Option (List Char)
  streamOpen : Bool
deriving DecidableEq, Repr

/-- Log lines written by mumble.py, one constructor per log site. -/
inductive LogM
  | recStarted | stopped | cancelled | timeout | noAudio | audioInfo
  | transcribing | emptyTranscription | transcribed | voiceCmd
  | repasteNone | repasting
deriving DecidableEq, Repr

/-- Observable side effects performed by mumble.py, in program order. -/
inductive Act
  | logMsg (m : LogM)
  | beep (freq dur : Nat)
  | updateTray (rec : Bool)
  | spawnWorker
  | waitModifiers
  | sleepSettle
  | setClipboard (t : List Char)
  | pressCtrl
  | pressV
  | releaseV
  | releaseCtrl
  | openHelp
  | transcribeCall
deriving DecidableEq, Repr

/-- The state at process start (mumble.py lines 125-136). -/
def initSt : St :=
  { recording := false, timerArmed := false, workerInFlight := false,
    chunks := [], last_transcription := none, streamOpen := false }

/-! ## Controller operations (mumble.py lines 307-381) -/

/-- stop_stream (mumble.py lines 330-337): clear the recording flag and
close the input stream without transcribing. -/
def stop_stream (st : St) : St :=
  { st with recording := false, streamOpen := false }

/-- cancel_recording (mumble.py lines 340-352): no-op unless recording;
otherwise disarm the timer, stop the stream, discard the buffered audio,
reset the tray, log and beep. -/
def cancel_recording (st : St) : St × List Act :=
  if st.recording then
    ({ stop_stream { st with timerArmed := false } with chunks := [] },
     [.updateTray false, .logMsg .cancelled, .beep 300 200])
  else (st, [])

/-- The timer callback _timeout_cancel (mumble.py lines 355-358): log the
timeout then run cancel_recording. -/
def timeoutCancel (st : St) : St × List Act :=
  ((cancel_recording st).1, .logMsg .timeout :: (cancel_recording st).2)

/-- toggle_recording (mumble.py lines 361-381): when the recording flag is
clear, start a session (set the flag, reset the chunk buffer, open the
stream, arm the timer); when it is set, disarm the timer, clear the flag
and spawn the stop-and-transcribe worker thread. -/
def toggle_recording (st : St) : St × List Act :=
  if st.recording then
    ({ st with timerArmed := false, recording := false, workerInFlight := true },
     [.logMsg .stopped, .beep 500 150, .spawnWorker])
  else
    ({ st with recording := true, chunks := [], streamOpen := true, timerArmed := true },
     [.logMsg .recStarted, .beep 1000 150, .updateTray true])

/-- The action sequence of paste_text (mumble.py lines 307-317): wait for
the hotkey modifiers to be released, settle, write the clipboard, then
press and release the paste chord. -/
def pasteActs (t : List Char) : List Act :=
  [.waitModifiers, .sleepSettle, .setClipboard t,
   .pressCtrl, .pressV, .releaseV, .releaseCtrl]

/-- repaste (mumble.py lines 320-327): with no cached transcription, beep
and log only; otherwise log and repeat the paste_text dispatch with the
cached text. -/
def repaste (st : St) : List Act :=
  match st.last_transcription with
  | none => [.beep 300 200, .logMsg .repasteNone]
  | some t => .logMsg .repasting :: pasteActs t

/-- The worker body stop_recording_and_transcribe (mumble.py lines
257-304).  The transcription engine is the black-box collaborator
model.transcribe, passed as a function that either raises (Except.error)
or returns the list of segment texts; rp is the resample_poly
collaborator.  The result carries the state after the worker thread
ends, the actions it performed, and the exception escaping the function,
if any (the function body contains no handler, so an engine exception
propagates). -/
structure WorkerOut where
  st : St
  acts : List Act
  raised : Option Unit
deriving DecidableEq, Repr

/-- State changes common to every exit of the worker: the input stream has
been stopped and closed (mumble.py lines 261-264) and the worker thread
has ended. -/
def workerBase (st : St) : St :=
  { st with streamOpen := false, workerInFlight := false }

def stop_recording_and_transcribe (rp : Nat → Nat → List Int → List Int)
    (engine : List Int → Except Unit (List (List Char)))
    (nativeRate targetRate : Nat) (st : St) : WorkerOut :=
  if st.chunks = [] then
    { st := workerBase st,
      acts := [.updateTray false, .logMsg .noAudio], raised := none }
  else
    match engine (resampleStep rp nativeRate targetRate st.chunks.flatten) with
    | .error e =>
        { st := workerBase st,
          acts := [.updateTray false, .logMsg .audioInfo, .logMsg .transcribing,
                   .transcribeCall],
          raised := some e }
    | .ok segs =>
        if pyStripWs (joinSpace segs) = [] then
          { st := workerBase st,
            acts := [.updateTray false, .logMsg .audioInfo, .logMsg .transcribing,
                     .transcribeCall, .logMsg .emptyTranscription],
            raised := none }
        else if toLowerL (pyStripCmd (collapseSpaces (collapseDigitSpaces
                  (pyStripWs (joinSpace segs))))) = showHelpL then
          { st := workerBase st,
            acts := [.updateTray false, .logMsg .audioInfo, .logMsg .transcribing,
                     .transcribeCall, .logMsg .transcribed, .logMsg .voiceCmd,
                     .openHelp],
            raised := none }
        else
          { st := { workerBase st with
                      last_transcription := some (collapseSpaces (collapseDigitSpaces
                        (pyStripWs (joinSpace segs)))) },
            acts := [.updateTray false, .logMsg .audioInfo, .logMsg .transcribing,
                     .transcribeCall, .logMsg .transcribed]
                    ++ pasteActs (collapseSpaces (collapseDigitSpaces
                         (pyStripWs (joinSpace segs)))),
            raised := none }

/-- A concrete mid-recording state with one buffered chunk. -/
def recSt : St :=
  { recording := true, timerArmed := true, workerInFlight := false,
    chunks := [[1]], last_transcription := none, streamOpen := true }

/-! ## C1: toggle during the stop-and-transcribe worker -/

/-- C1 (counterexample): the claim says a toggle() arriving while the
controller is in Stopping (stop issued, worker not yet finished) is
ignored and does not start a new recording session.  In mumble.py the
stop branch of toggle_recording clears the recording flag immediately
and the worker runs on a detached thread, so after toggle-start and
toggle-stop the worker is in flight with the flag clear, and a third
toggle() is accepted and starts a new recording session while the worker
is still running. -/
theorem c1_toggle_during_stopping_counterexample :
    ((toggle_recording (toggle_recording initSt).1).1).workerInFlight = true ∧
    ((toggle_recording (toggle_recording initSt).1).1).recording = false ∧
    (toggle_recording ((toggle_recording (toggle_recording initSt).1).1)).1.recording = true ∧
    (toggle_recording ((toggle_recording (toggle_recording initSt).1).1)).1.workerInFlight
      = true := by
  decide

/-- C1 (amended): mumble.py has no Stopping state: any toggle() arriving
while the recording flag is clear — whether or not a previous session's
worker thread is still in flight — is accepted and starts a fresh
recording session (flag set, chunk buffer reset, stream opened, timer
armed), leaving the in-flight-worker status unchanged. -/
theorem c1_toggle_not_recording_starts_session (st : St) (h : st.recording = false) :
    (toggle_recording st).1.recording = true ∧
    (toggle_recording st).1.chunks = [] ∧
    (toggle_recording st).1.timerArmed = true ∧
    (toggle_recording st).1.streamOpen = true ∧
    (toggle_recording st).1.workerInFlight = st.workerInFlight ∧
    (toggle_recording st).2 = [.logMsg .recStarted, .beep 1000 150, .updateTray true] := by
  simp [toggle_recording, h]

/-- Witness for C1 (amended) at a state whose worker is still in flight. -/
theorem c1_toggle_not_recording_starts_session_witness :
    ({ initSt with workerInFlight := true } : St).recording = false ∧
    (toggle_recording { initSt with workerInFlight := true }).1.recording = true :=
  ⟨rfl, (c1_toggle_not_recording_starts_session { initSt with workerInFlight := true } rfl).1⟩

/-! ## C3: timeout auto-cancel -/

/-- C3: when the max-duration timer fires during a recording session with
no manual stop, _timeout_cancel performs a cancel-equivalent teardown:
the buffered audio is discarded, the timer is disarmed, a distinct
timed-out log notification is emitted before the cancel actions, the
transcription engine is never invoked, nothing is pasted, the cached
transcription is untouched and the state returns to Idle. -/
theorem c3_timeout_cancels (st : St) (h : st.recording = true) :
    (timeoutCancel st).1.chunks = [] ∧
    (timeoutCancel st).1.recording = false ∧
    (timeoutCancel st).1.timerArmed = false ∧
    (timeoutCancel st).1.streamOpen = false ∧
    (timeoutCancel st).1.last_transcription = st.last_transcription ∧
    (timeoutCancel st).2
      = [.logMsg .timeout, .updateTray false, .logMsg .cancelled, .beep 300 200] ∧
    Act.transcribeCall ∉ (timeoutCancel st).2 ∧
    (∀ t, Act.setClipboard t ∉ (timeoutCancel st).2) := by
  simp [timeoutCancel, cancel_recording, stop_stream, h]

/-- Witness for C3 at a concrete recording state with one buffered chunk. -/
theorem c3_timeout_cancels_witness :
    recSt.recording = true ∧ (timeoutCancel recSt).1.chunks = [] :=
  ⟨rfl, (c3_timeout_cancels recSt rfl).1⟩

/-! ## C8: repaste -/

/-- C8: repaste with no cached transcription produces only the audible cue
and the log line and never writes the clipboard; repaste with cached
text t emits exactly the repasting log followed by the pasteActs
dispatch — the same paste_text action sequence used by the original
session — which sets the clipboard to t and sends the paste chord. -/
theorem c8_repaste (st : St) (t : List Char) :
    (st.last_transcription = none →
      repaste st = [.beep 300 200, .logMsg .repasteNone] ∧
      ∀ u, Act.setClipboard u ∉ repaste st) ∧
    (st.last_transcription = some t →
      repaste st = .logMsg .repasting :: pasteActs t ∧
      repaste st = [.logMsg .repasting, .waitModifiers, .sleepSettle, .setClipboard t,
                    .pressCtrl, .pressV, .releaseV, .releaseCtrl]) := by
  refine ⟨fun h => ?_, fun h => ?_⟩ <;> simp [repaste, h, pasteActs]

/-- Witness for C8 at the empty cache and at a cache holding "hello". -/
theorem c8_repaste_witness :
    initSt.last_transcription = none ∧
    repaste initSt = [.beep 300 200, .logMsg .repasteNone] ∧
    ({ initSt with last_transcription := some (String.toList "hello") } : St).last_transcription
      = some (String.toList "hello") ∧
    repaste { initSt with last_transcription := some (String.toList "hello") }
      = [.logMsg .repasting, .waitModifiers, .sleepSettle,
         .setClipboard (String.toList "hello"),
         .pressCtrl, .pressV, .releaseV, .releaseCtrl] :=
  ⟨rfl, ((c8_repaste initSt []).1 rfl).1, rfl,
   ((c8_repaste { initSt with last_transcription := some (String.toList "hello") }
      (String.toList "hello")).2 rfl).2⟩

/-! ## C9: cancel idempotence -/

/-- C9: cancel_recording is idempotent: at any state whose recording flag
is clear it returns the state unchanged with no actions (no cue, no
error), and immediately after any cancel_recording or any timeout
teardown a further cancel_recording is such a no-op. -/
theorem c9_cancel_idempotent (st : St) :
    (st.recording = false → cancel_recording st = (st, [])) ∧
    cancel_recording (cancel_recording st).1 = ((cancel_recording st).1, []) ∧
    cancel_recording (timeoutCancel st).1 = ((timeoutCancel st).1, []) := by
  refine ⟨fun h => by simp [cancel_recording, h], ?_, ?_⟩ <;>
    by_cases h : st.recording <;>
      simp [cancel_recording, timeoutCancel, stop_stream, h]

/-- Witness for C9 at the idle initial state. -/
theorem c9_cancel_idempotent_witness :
    initSt.recording = false ∧ cancel_recording initSt = (initSt, []) :=
  ⟨rfl, (c9_cancel_idempotent initSt).1 rfl⟩

/-! ## Text pipeline lemmas -/

theorem space_not_digit : (' ' : Char).isDigit = false := by decide

/-- The scanning implementation of the digit-space regex agrees with the
declarative neighbour rule, one emitted head at a time. -/
theorem collapseDigitSpaces_cons :
    ∀ (n : Nat) (l : List Char) (c : Char), l.length ≤ n →
      collapseDigitSpaces (c :: l) = c :: dropDigitSpacesSpec (some c) l := by
  intro n
  induction n with
  | zero =>
    intro l c h
    match l with
    | [] => simp [collapseDigitSpaces, dropDigitSpacesSpec]
    | x :: xs => simp at h
  | succ n ih =>
    intro l c h
    match l with
    | [] => simp [collapseDigitSpaces, dropDigitSpacesSpec]
    | [s] => simp [collapseDigitSpaces, dropDigitSpacesSpec, isDigitO]
    | s :: b :: rest =>
      have hr : rest.length ≤ n := by simp at h; omega
      have hbr : (b :: rest).length ≤ n := by simp at h; simp; omega
      by_cases hc : (s == ' ' && c.isDigit && b.isDigit) = true
      · obtain ⟨⟨hs, hcd⟩, hbd⟩ : (s = ' ' ∧ c.isDigit = true) ∧ b.isDigit = true := by
          simpa [Bool.and_eq_true, beq_iff_eq] using hc
        subst hs
        rw [show collapseDigitSpaces (c :: ' ' :: b :: rest)
              = c :: collapseDigitSpaces (b :: rest) by
            simp [collapseDigitSpaces, hcd, hbd]]
        rw [ih rest b hr]
        simp [dropDigitSpacesSpec, isDigitO, hcd, hbd, space_not_digit]
      · have hc' : (s == ' ' && c.isDigit && b.isDigit) = false := by
          simpa using hc
        rw [show collapseDigitSpaces (c :: s :: b :: rest)
              = c :: collapseDigitSpaces (s :: b :: rest) by
            simp [collapseDigitSpaces, hc']]
        rw [ih (b :: rest) s hbr]
        rw [show dropDigitSpacesSpec (some c) (s :: b :: rest)
              = s :: dropDigitSpacesSpec (some s) (b :: rest) by
            simp [dropDigitSpacesSpec, isDigitO, hc']]

/-- The digit-space regex of mumble.py line 290 removes a space iff it is
immediately preceded and immediately followed by a digit. -/
theorem collapseDigitSpaces_eq_spec (l : List Char) :
    collapseDigitSpaces l = dropDigitSpacesSpec none l := by
  match l with
  | [] => rfl
  | c :: rest =>
    rw [collapseDigitSpaces_cons rest.length rest c (le_refl _)]
    simp [dropDigitSpacesSpec, isDigitO]

/-- collapseSpaces never drops the first character of the text (a run of
spaces collapses onto its first space). -/
theorem collapseSpaces_head :
    ∀ (n : Nat) (l : List Char), l.length ≤ n →
      (collapseSpaces l).head? = l.head? := by
  intro n
  induction n with
  | zero =>
    intro l h
    match l with
    | [] => rfl
    | x :: xs => simp at h
  | succ n ih =>
    intro l h
    match l with
    | [] => rfl
    | [a] => rfl
    | a :: b :: rest =>
      have hbr : (b :: rest).length ≤ n := by simp at h; simp; omega
      by_cases hc : (a == ' ' && b == ' ') = true
      · obtain ⟨ha, hb⟩ : a = ' ' ∧ b = ' ' := by
          simpa [Bool.and_eq_true, beq_iff_eq] using hc
        subst ha; subst hb
        rw [show collapseSpaces (' ' :: ' ' :: rest) = collapseSpaces (' ' :: rest) by
          simp [collapseSpaces]]
        rw [ih (' ' :: rest) hbr]
        rfl
      · have hc' : (a == ' ' && b == ' ') = false := by simpa using hc
        rw [show collapseSpaces (a :: b :: rest) = a :: collapseSpaces (b :: rest) by
          simp [collapseSpaces, hc']]
        rfl

/-- The output of the space-run regex of mumble.py line 293 contains no
two adjacent spaces. -/
theorem collapseSpaces_no_double :
    ∀ (n : Nat) (l : List Char), l.length ≤ n →
      hasDoubleSpace (collapseSpaces l) = false := by
  intro n
  induction n with
  | zero =>
    intro l h
    match l with
    | [] => rfl
    | x :: xs => simp at h
  | succ n ih =>
    intro l h
    match l with
    | [] => rfl
    | [a] => rfl
    | a :: b :: rest =>
      have hbr : (b :: rest).length ≤ n := by simp at h; simp; omega
      by_cases hc : (a == ' ' && b == ' ') = true
      · rw [show collapseSpaces (a :: b :: rest) = collapseSpaces (b :: rest) by
          simp [collapseSpaces, hc]]
        exact ih (b :: rest) hbr
      · have hc' : (a == ' ' && b == ' ') = false := by simpa using hc
        rw [show collapseSpaces (a :: b :: rest) = a :: collapseSpaces (b :: rest) by
          simp [collapseSpaces, hc']]
        cases hx : collapseSpaces (b :: rest) with
        | nil => rfl
        | cons y ys =>
          have hxb : y = b := by
            have hh := collapseSpaces_head (b :: rest).length (b :: rest) (le_refl _)
            rw [hx] at hh
            simpa using hh
          subst hxb
          have h2 := ih (y :: rest) hbr
          rw [hx] at h2
          simp [hasDoubleSpace, hc', h2]

/-! ## C6: the post-processing pipeline -/

/-- C6: post-processing first trims leading and trailing whitespace, then
removes exactly those spaces that are immediately preceded and
immediately followed by a digit (the declarative neighbour rule), then
collapses every run of two or more spaces to a single one (no double
space survives); on the spec examples, "1 2 3 4" becomes "1234" and
"hello   world" becomes "hello world". -/
theorem c6_postprocess_pipeline :
    (∀ s : List Char,
       postProcess s = collapseSpaces (dropDigitSpacesSpec none (pyStripWs s))) ∧
    (∀ s : List Char, hasDoubleSpace (postProcess s) = false) ∧
    postProcess (String.toList "1 2 3 4") = String.toList "1234" ∧
    postProcess (String.toList "hello   world") = String.toList "hello world" := by
  refine ⟨fun s => ?_, fun s => ?_, by decide, by decide⟩
  · rw [postProcess, collapseDigitSpaces_eq_spec]
  · rw [postProcess]
    exact collapseSpaces_no_double _ _ (le_refl _)

/-! ## C10: runs of spaces between digits are not joined -/

theorem isDigit_ne_char {c x : Char} (h : c.isDigit = true) (hx : x.isDigit = false) :
    (c == x) = false := by
  cases he : c == x
  · rfl
  · have hcx : c = x := by simpa using he
    rw [hcx] at h
    rw [h] at hx
    simp at hx

theorem isDigit_ne_space {c : Char} (h : c.isDigit = true) : (c == ' ') = false :=
  isDigit_ne_char h space_not_digit

theorem isDigit_not_pyWs {c : Char} (h : c.isDigit = true) : pyWsChar c = false := by
  rw [pyWsChar,
      isDigit_ne_char h (show (' ' : Char).isDigit = false by decide),
      isDigit_ne_char h (show ('\t' : Char).isDigit = false by decide),
      isDigit_ne_char h (show ('\n' : Char).isDigit = false by decide),
      isDigit_ne_char h (show ('\r' : Char).isDigit = false by decide),
      isDigit_ne_char h (show ('\x0b' : Char).isDigit = false by decide),
      isDigit_ne_char h (show ('\x0c' : Char).isDigit = false by decide)]
  rfl

theorem stripLeadingBy_cons_false (p : Char → Bool) (c : Char) (l : List Char)
    (h : p c = false) : stripLeadingBy p (c :: l) = c :: l := by
  simp [stripLeadingBy, h]

/-- Stripping whitespace is the identity on a text that starts and ends
with a digit. -/
theorem pyStripWs_digit_ends (d1 d2 : Char) (k : Nat)
    (h1 : d1.isDigit = true) (h2 : d2.isDigit = true) :
    pyStripWs (d1 :: (List.replicate k ' ' ++ [d2]))
      = d1 :: (List.replicate k ' ' ++ [d2]) := by
  have hr : (d1 :: (List.replicate k ' ' ++ [d2])).reverse
      = d2 :: (List.replicate k ' ' ++ [d1]) := by
    simp [List.reverse_cons, List.reverse_append, List.reverse_replicate]
  rw [pyStripWs, pyStrip, stripTrailingBy, hr,
      stripLeadingBy_cons_false _ _ _ (isDigit_not_pyWs h2)]
  rw [show (d2 :: (List.replicate k ' ' ++ [d1])).reverse
        = d1 :: (List.replicate k ' ' ++ [d2]) by
      simp [List.reverse_cons, List.reverse_append, List.reverse_replicate]]
  exact stripLeadingBy_cons_false _ _ _ (isDigit_not_pyWs h1)

/-- The digit-space rule ignores a space whose successor is another
space. -/
theorem collapseDigitSpaces_space_cons (t : List Char) :
    collapseDigitSpaces (' ' :: t) = ' ' :: collapseDigitSpaces t := by
  match t with
  | [] => rfl
  | [b] => rfl
  | b :: c :: rest => simp [collapseDigitSpaces, space_not_digit]

/-- The digit-space rule is the identity on a run of spaces followed by a
single final character. -/
theorem collapseDigitSpaces_spaces_then (j : Nat) (d : Char) :
    collapseDigitSpaces (List.replicate j ' ' ++ [d])
      = List.replicate j ' ' ++ [d] := by
  induction j with
  | zero => rfl
  | succ j ih =>
    rw [List.replicate_succ, List.cons_append, collapseDigitSpaces_space_cons, ih]

/-- The space-run rule collapses a nonempty run of spaces before a final
non-space character to a single space. -/
theorem collapseSpaces_spaces_then (j : Nat) (d : Char) (hd : (d == ' ') = false) :
    collapseSpaces (List.replicate (j + 1) ' ' ++ [d]) = [' ', d] := by
  induction j with
  | zero => simp [collapseSpaces, hd]
  | succ j ih =>
    rw [List.replicate_succ, List.cons_append]
    rw [show List.replicate (j + 1) ' ' ++ [d] = ' ' :: (List.replicate j ' ' ++ [d]) by
      rw [List.replicate_succ, List.cons_append]] at ih ⊢
    simpa [collapseSpaces] using ih

theorem collapseSpaces_cons_ne (a b : Char) (rest : List Char)
    (h : (a == ' ') = false) :
    collapseSpaces (a :: b :: rest) = a :: collapseSpaces (b :: rest) := by
  simp [collapseSpaces, h]

/-- C10: when two digits are separated by a run of two or more spaces,
post-processing collapses the run to a single space and never joins the
digits: the digit-space rule fires only on single spaces with digit
neighbours, and the space-run rule then leaves exactly one space. -/
theorem c10_digit_space_runs (d1 d2 : Char) (k : Nat)
    (h1 : d1.isDigit = true) (h2 : d2.isDigit = true) (hk : 2 ≤ k) :
    postProcess (d1 :: (List.replicate k ' ' ++ [d2])) = [d1, ' ', d2] ∧
    postProcess (d1 :: (List.replicate k ' ' ++ [d2])) ≠ [d1, d2] := by
  obtain ⟨j, rfl⟩ : ∃ j, k = j + 2 := ⟨k - 2, by omega⟩
  rw [postProcess, pyStripWs_digit_ends d1 d2 (j + 2) h1 h2]
  have hstep1 : collapseDigitSpaces (d1 :: (List.replicate (j + 2) ' ' ++ [d2]))
      = d1 :: (List.replicate (j + 2) ' ' ++ [d2]) := by
    rw [show List.replicate (j + 2) ' ' ++ [d2]
          = ' ' :: ' ' :: (List.replicate j ' ' ++ [d2]) by
        rw [List.replicate_succ, List.replicate_succ, List.cons_append, List.cons_append]]
    rw [show collapseDigitSpaces (d1 :: ' ' :: ' ' :: (List.replicate j ' ' ++ [d2]))
          = d1 :: collapseDigitSpaces (' ' :: ' ' :: (List.replicate j ' ' ++ [d2])) by
        simp [collapseDigitSpaces, space_not_digit]]
    rw [collapseDigitSpaces_space_cons, collapseDigitSpaces_space_cons,
        collapseDigitSpaces_spaces_then]
  rw [hstep1]
  rw [show d1 :: (List.replicate (j + 2) ' ' ++ [d2])
        = d1 :: ' ' :: (List.replicate (j + 1) ' ' ++ [d2]) by
      simp [List.replicate_succ]]
  rw [collapseSpaces_cons_ne d1 ' ' _ (isDigit_ne_space h1)]
  rw [show (' ' : Char) :: (List.replicate (j + 1) ' ' ++ [d2])
        = List.replicate (j + 1 + 1) ' ' ++ [d2] by
      simp [List.replicate_succ]]
  rw [collapseSpaces_spaces_then (j + 1) d2 (isDigit_ne_space h2)]
  simp

/-- Witness for C10: "1  2" post-processes to "1 2", not "12". -/
theorem c10_digit_space_runs_witness :
    ('1' : Char).isDigit = true ∧ ('2' : Char).isDigit = true ∧ 2 ≤ 2 ∧
    postProcess ('1' :: (List.replicate 2 ' ' ++ ['2'])) = ['1', ' ', '2'] :=
  ⟨by decide, by decide, by decide,
   (c10_digit_space_runs '1' '2' 2 (by decide) (by decide) (by decide)).1⟩

/-! ## C5: voice command classification -/

theorem toLower_s_ne {c x : Char} (hc : Char.toLower c = 's')
    (hx : Char.toLower x ≠ 's') : (c == x) = false := by
  cases he : c == x
  · rfl
  · have hcx : c = x := by simpa using he
    rw [hcx] at hc
    exact absurd hc hx

/-- If already the trailing strip of "., " followed by lowercasing yields
the command phrase, then the two-sided Python strip("., ") followed by
lowercasing yields it as well: the phrase starts with a letter, so the
leading strip removes nothing. -/
theorem pyStripCmd_of_trailing (text : List Char)
    (h : toLowerL (stripTrailingBy cmdStripChar text) = showHelpL) :
    toLowerL (pyStripCmd text) = showHelpL := by
  rw [pyStripCmd, pyStrip]
  cases hu : stripTrailingBy cmdStripChar text with
  | nil =>
    rw [hu] at h
    exact absurd h (by decide)
  | cons c u =>
    rw [hu] at h
    have hc : Char.toLower c = 's' := by
      have hh := congrArg List.head? h
      simpa [toLowerL, showHelpL] using hh
    have hcs : cmdStripChar c = false := by
      rw [cmdStripChar,
          toLower_s_ne hc (show Char.toLower '.' ≠ 's' by decide),
          toLower_s_ne hc (show Char.toLower ',' ≠ 's' by decide),
          toLower_s_ne hc (show Char.toLower ' ' ≠ 's' by decide)]
      rfl
    rw [stripLeadingBy_cons_false _ _ _ hcs]
    exact h

/-- C5: when the post-processed text with trailing "., " characters
stripped and case-folded equals the phrase "show help", the worker takes
the command path: show_help is invoked, nothing is written to the
clipboard, no paste chord is pressed, and the cached last transcription
is left unchanged. -/
theorem c5_voice_command (rp : Nat → Nat → List Int → List Int)
    (engine : List Int → Except Unit (List (List Char)))
    (nR tR : Nat) (st : St) (segs : List (List Char))
    (h1 : ¬ st.chunks = [])
    (h2 : engine (resampleStep rp nR tR st.chunks.flatten) = .ok segs)
    (h3 : ¬ pyStripWs (joinSpace segs) = [])
    (h4 : toLowerL (stripTrailingBy cmdStripChar
            (collapseSpaces (collapseDigitSpaces (pyStripWs (joinSpace segs)))))
          = showHelpL) :
    Act.openHelp ∈ (stop_recording_and_transcribe rp engine nR tR st).acts ∧
    (∀ t, Act.setClipboard t ∉ (stop_recording_and_transcribe rp engine nR tR st).acts) ∧
    Act.pressCtrl ∉ (stop_recording_and_transcribe rp engine nR tR st).acts ∧
    (stop_recording_and_transcribe rp engine nR tR st).st.last_transcription
      = st.last_transcription := by
  have h4' := pyStripCmd_of_trailing _ h4
  rw [stop_recording_and_transcribe, if_neg h1, h2]
  simp only []
  rw [if_neg h3, if_pos h4']
  simp [workerBase]

/-- Witness for C5: the engine returns the single segment "show help". -/
theorem c5_voice_command_witness :
    ¬ ({ initSt with chunks := [[0]] } : St).chunks = [] ∧
    toLowerL (stripTrailingBy cmdStripChar
        (collapseSpaces (collapseDigitSpaces (pyStripWs (joinSpace [showHelpL])))))
      = showHelpL ∧
    Act.openHelp ∈ (stop_recording_and_transcribe (fun _ _ xs => xs)
        (fun _ => Except.ok [showHelpL]) 16000 16000
        { initSt with chunks := [[0]] }).acts :=
  ⟨by decide, by decide,
   (c5_voice_command (fun _ _ xs => xs) (fun _ => Except.ok [showHelpL]) 16000 16000
      { initSt with chunks := [[0]] } [showHelpL]
      (by decide) rfl (by decide) (by decide)).1⟩

/-! ## C7: empty capture and empty transcription -/

/-- C7: when the worker starts with zero buffered chunks, or the engine
text is empty after trimming, the outcome is a logged no-result: no
exception, the cached transcription is unchanged, the clipboard is never
written, no paste chord is pressed, the recording flag is untouched
(the state stays Idle), and the corresponding no-result line is
logged. -/
theorem c7_no_result (rp : Nat → Nat → List Int → List Int)
    (engine : List Int → Except Unit (List (List Char)))
    (nR tR : Nat) (st : St)
    (h : st.chunks = [] ∨
         ∃ segs, engine (resampleStep rp nR tR st.chunks.flatten) = .ok segs
           ∧ pyStripWs (joinSpace segs) = []) :
    (stop_recording_and_transcribe rp engine nR tR st).raised = none ∧
    (stop_recording_and_transcribe rp engine nR tR st).st.last_transcription
      = st.last_transcription ∧
    (∀ t, Act.setClipboard t ∉ (stop_recording_and_transcribe rp engine nR tR st).acts) ∧
    Act.pressCtrl ∉ (stop_recording_and_transcribe rp engine nR tR st).acts ∧
    (stop_recording_and_transcribe rp engine nR tR st).st.recording = st.recording ∧
    (Act.logMsg .noAudio ∈ (stop_recording_and_transcribe rp engine nR tR st).acts ∨
     Act.logMsg .emptyTranscription
       ∈ (stop_recording_and_transcribe rp engine nR tR st).acts) := by
  rcases h with h | ⟨segs, he, hs⟩
  · simp [stop_recording_and_transcribe, h, workerBase]
  · by_cases hc : st.chunks = []
    · simp [stop_recording_and_transcribe, hc, workerBase]
    · rw [stop_recording_and_transcribe, if_neg hc, he]
      simp only []
      rw [if_pos hs]
      simp [workerBase]

/-- Witness for C7 at a stop with zero buffered chunks. -/
theorem c7_no_result_witness :
    initSt.chunks = [] ∧
    (stop_recording_and_transcribe (fun _ _ xs => xs) (fun _ => Except.ok [])
        48000 16000 initSt).st.last_transcription = none :=
  ⟨rfl, ((c7_no_result (fun _ _ xs => xs) (fun _ => Except.ok []) 48000 16000 initSt
      (Or.inl rfl)).2).1⟩

/-! ## C2: engine exception on the stop path -/

/-- C2 (counterexample): the claim says an engine exception is caught at
the worker boundary and logged.  In mumble.py the body of
stop_recording_and_transcribe contains no handler, so an engine
exception escapes the worker function uncaught (raised is some, not
none) and no log line records it. -/
theorem c2_exception_not_caught_counterexample :
    (stop_recording_and_transcribe (fun _ _ xs => xs) (fun _ => Except.error ())
        16000 16000 { initSt with chunks := [[0]] }).raised = some () ∧
    (stop_recording_and_transcribe (fun _ _ xs => xs) (fun _ => Except.error ())
        16000 16000 { initSt with chunks := [[0]] }).raised ≠ none := by
  decide

/-- C2 (amended): when the engine call raises, the exception escapes
stop_recording_and_transcribe uncaught and unlogged, terminating only
the detached worker thread; before the raise the stream has been
stopped and the tray reset, and no paste occurs and the cached last
transcription is unchanged, so apart from the missing handler and log
the session still resolves with no paste and no cache update. -/
theorem c2_engine_exception_propagates (rp : Nat → Nat → List Int → List Int)
    (engine : List Int → Except Unit (List (List Char)))
    (nR tR : Nat) (st : St) (e : Unit)
    (h1 : ¬ st.chunks = [])
    (h2 : engine (resampleStep rp nR tR st.chunks.flatten) = .error e) :
    (stop_recording_and_transcribe rp engine nR tR st).raised = some e ∧
    (stop_recording_and_transcribe rp engine nR tR st).st.last_transcription
      = st.last_transcription ∧
    (∀ t, Act.setClipboard t ∉ (stop_recording_and_transcribe rp engine nR tR st).acts) ∧
    Act.pressCtrl ∉ (stop_recording_and_transcribe rp engine nR tR st).acts ∧
    (stop_recording_and_transcribe rp engine nR tR st).st.recording = st.recording ∧
    (stop_recording_and_transcribe rp engine nR tR st).st.streamOpen = false ∧
    (stop_recording_and_transcribe rp engine nR tR st).acts
      = [.updateTray false, .logMsg .audioInfo, .logMsg .transcribing, .transcribeCall] := by
  rw [stop_recording_and_transcribe, if_neg h1, h2]
  simp [workerBase]

/-- Witness for C2 (amended) at a one-chunk state and an always-raising
engine. -/
theorem c2_engine_exception_propagates_witness :
    ¬ ({ initSt with chunks := [[0]] } : St).chunks = [] ∧
    (stop_recording_and_transcribe (fun _ _ xs => xs) (fun _ => Except.error ())
        48000 16000 { initSt with chunks := [[0]] }).st.last_transcription = none :=
  ⟨by decide,
   ((c2_engine_exception_propagates (fun _ _ xs => xs) (fun _ => Except.error ())
      48000 16000 { initSt with chunks := [[0]] } () (by decide) rfl).2).1⟩

/-! ## C4: resampler arithmetic -/

theorem ceilDiv_le_iff (a b k : Nat) (hb : 0 < b) : ceilDiv a b ≤ k ↔ a ≤ k * b := by
  rw [ceilDiv, Nat.div_le_iff_le_mul_add_pred hb, Nat.mul_comm b k]
  omega

theorem le_ceilDiv (a b : Nat) (hb : 0 < b) : a / b ≤ ceilDiv a b := by
  apply Nat.div_le_div_right
  omega

theorem ceilDiv_le_succ (a b : Nat) (hb : 0 < b) : ceilDiv a b ≤ a / b + 1 := by
  rw [ceilDiv_le_iff a b _ hb]
  have h1 := Nat.div_add_mod a b
  have h2 := Nat.mod_lt a hb
  have h3 : (a / b + 1) * b = b * (a / b) + b := by ring
  omega

theorem roundNat_ge (a b : Nat) (hb : 0 < b) : a / b ≤ roundNat a b := by
  rw [roundNat, show a / b = 2 * a / (2 * b) from (Nat.mul_div_mul_left a b (by omega)).symm]
  apply Nat.div_le_div_right
  omega

theorem roundNat_le (a b : Nat) (hb : 0 < b) : roundNat a b ≤ a / b + 1 := by
  rw [roundNat]
  have h1 := Nat.div_add_mod a b
  have h2 := Nat.mod_lt a hb
  rw [Nat.div_le_iff_le_mul_add_pred (show 0 < 2 * b by omega)]
  have h3 : 2 * b * (a / b + 1) = 2 * (b * (a / b)) + 2 * b := by ring
  omega

/-- Both the ceiling length produced by the polyphase resampler and the
rounded ideal length lie in the same unit interval above the floor, so
they differ by at most one sample. -/
theorem ceilDiv_roundNat_dist (a b : Nat) (hb : 0 < b) :
    Nat.dist (ceilDiv a b) (roundNat a b) ≤ 1 := by
  have h1 := le_ceilDiv a b hb
  have h2 := ceilDiv_le_succ a b hb
  have h3 := roundNat_ge a b hb
  have h4 := roundNat_le a b hb
  rw [Nat.dist]
  omega

/-- Cancelling a common factor of numerator and denominator leaves the
ceiling quotient unchanged. -/
theorem ceilDiv_mul_left (g a b : Nat) (hg : 0 < g) (hb : 0 < b) :
    ceilDiv (g * a) (g * b) = ceilDiv a b := by
  apply Nat.le_antisymm
  · rw [ceilDiv_le_iff _ _ _ (Nat.mul_pos hg hb)]
    have h := (ceilDiv_le_iff a b (ceilDiv a b) hb).mp (le_refl _)
    calc g * a ≤ g * (ceilDiv a b * b) := Nat.mul_le_mul_left g h
      _ = ceilDiv a b * (g * b) := by ring
  · rw [ceilDiv_le_iff _ _ _ hb]
    have h := (ceilDiv_le_iff (g * a) (g * b) (ceilDiv (g * a) (g * b))
        (Nat.mul_pos hg hb)).mp (le_refl _)
    have h2 : g * a ≤ g * (ceilDiv (g * a) (g * b) * b) := by
      calc g * a ≤ ceilDiv (g * a) (g * b) * (g * b) := h
        _ = g * (ceilDiv (g * a) (g * b) * b) := by ring
    exact Nat.le_of_mul_le_mul_left h2 hg

theorem roundNat_mul_self (L b : Nat) (hb : 0 < b) : roundNat (L * b) b = L := by
  rw [roundNat, show 2 * (L * b) + b = b * (2 * L + 1) by ring,
      show 2 * b = b * 2 by ring, Nat.mul_div_mul_left (2 * L + 1) 2 hb]
  omega

/-- C4: for any polyphase resampler obeying the documented resample_poly
length contract (ceil(n*up/down) output samples), the resampling step of
the worker is bit-identical passthrough when the native rate equals the
target rate, otherwise invokes the resampler with the gcd-reduced ratio
up = target/g, down = native/g, and in all cases the output length is
within one sample of round(inputLength * targetRate / nativeRate). -/
theorem c4_resampler (rp : Nat → Nat → List Int → List Int)
    (hrp : ∀ up down xs, 0 < down → (rp up down xs).length = ceilDiv (xs.length * up) down)
    (nR tR : Nat) (hn : 0 < nR) (ht : 0 < tR) (xs : List Int) :
    (nR = tR → resampleStep rp nR tR xs = xs) ∧
    (nR ≠ tR → resampleStep rp nR tR xs
        = rp (tR / Nat.gcd nR tR) (nR / Nat.gcd nR tR) xs) ∧
    Nat.dist (resampleStep rp nR tR xs).length (roundNat (xs.length * tR) nR) ≤ 1 := by
  refine ⟨fun h => by simp [resampleStep, h], fun h => by simp [resampleStep, h], ?_⟩
  by_cases h : nR = tR
  · subst h
    rw [show resampleStep rp nR nR xs = xs by simp [resampleStep]]
    rw [roundNat_mul_self xs.length nR hn]
    simp [Nat.dist_self]
  · rw [show resampleStep rp nR tR xs
          = rp (tR / Nat.gcd nR tR) (nR / Nat.gcd nR tR) xs by simp [resampleStep, h]]
    obtain ⟨g, hg⟩ : ∃ g, Nat.gcd nR tR = g := ⟨_, rfl⟩
    have hgpos : 0 < g := hg ▸ Nat.gcd_pos_of_pos_left tR hn
    obtain ⟨n', hn'⟩ : g ∣ nR := hg ▸ Nat.gcd_dvd_left nR tR
    obtain ⟨t', ht'⟩ : g ∣ tR := hg ▸ Nat.gcd_dvd_right nR tR
    have hNdiv : nR / g = n' := by
      rw [hn']
      exact Nat.mul_div_cancel_left n' hgpos
    have hTdiv : tR / g = t' := by
      rw [ht']
      exact Nat.mul_div_cancel_left t' hgpos
    have hn'pos : 0 < n' := by
      rcases Nat.eq_zero_or_pos n' with h0 | h0
      · rw [h0, Nat.mul_zero] at hn'
        omega
      · exact h0
    rw [hg, hTdiv, hNdiv, hrp _ _ _ hn'pos]
    have hkey : ceilDiv (xs.length * t') n' = ceilDiv (xs.length * tR) nR := by
      conv_rhs => rw [hn', ht']
      rw [show xs.length * (g * t') = g * (xs.length * t') by ring]
      rw [ceilDiv_mul_left g (xs.length * t') n' hgpos hn'pos]
    rw [hkey]
    exact ceilDiv_roundNat_dist _ _ hn

/-- Witness for C4 at the 48000 to 16000 rate pair on five samples. -/
theorem c4_resampler_witness :
    (0 : Nat) < 48000 ∧ (0 : Nat) < 16000 ∧
    Nat.dist ((resampleStep (fun up down xs => List.replicate (ceilDiv (xs.length * up) down) 0)
        48000 16000 [0, 0, 0, 0, 0]).length)
      (roundNat (List.length [(0 : Int), 0, 0, 0, 0] * 16000) 48000) ≤ 1 :=
  ⟨by decide, by decide,
   ((c4_resampler (fun up down xs => List.replicate (ceilDiv (xs.length * up) down) 0)
      (fun up down xs h => by simp)
      48000 16000 (by decide) (by decide) [0, 0, 0, 0, 0]).2).2⟩

end Mumble
